import Mathlib

/-!
Verification development for the two preprocessing passes of the
sublimetext-markdown-preview repository:

* `src/markdown/extensions/criticmarkup.py` — the Annotation Rewriter
  (addition / deletion / substitution / highlight / comment rewriting), and
* `src/markdown/extensions/smartembeds.py` — the Embed Resolver
  (the `@protocol:[title](url "attrs")` directive pipeline).

Strings are modelled as Lean `String` / `List Char`; Python runtime
exceptions (IndexError on `""[0]`, AttributeError on `str.append`, KeyError
on `%`-formatting) are modelled with `Except PyErr`.  Each definition carries
a comment naming the Python construct it embeds.
-/

set_option maxHeartbeats 4000000
set_option maxRecDepth 4000

/-- Errors a Python expression in the embedded code can raise at runtime. -/
inductive PyErr where
  | index
  | attr
  | key
  | format
deriving DecidableEq

/-- Python `str` whitespace and regex (non-unicode) whitespace class:
space, tab, newline, carriage return, vertical tab, form feed. -/
def isPyWs (c : Char) : Bool :=
  c = ' ' || c = '\t' || c = '\n' || c = '\r' || c = '\x0b' || c = '\x0c'

/-- First index at which a predicate holds, scanning left to right.
Models Python `str.find` for a single target (returns `none` for -1). -/
def pyFindIdx (p : Char → Bool) : List Char → Option Nat
  | [] => none
  | c :: cs =>
    if p c then some 0
    else
      match pyFindIdx p cs with
      | some i => some (i + 1)
      | none => none

/-- Worker for `pyReplace`; fuel is the input length, adequate because the
pattern is non-empty so each step consumes at least one character. -/
def pyReplGo (pat rep : List Char) : Nat → List Char → List Char
  | 0, s => s
  | _, [] => []
  | f + 1, c :: cs =>
    if pat.isPrefixOf (c :: cs) then rep ++ pyReplGo pat rep f ((c :: cs).drop pat.length)
    else c :: pyReplGo pat rep f cs

/-- Python `s.replace(pat, rep)` for a non-empty `pat`: left-to-right,
non-overlapping. -/
def pyReplace (s pat rep : String) : String :=
  ⟨pyReplGo pat.toList rep.toList s.toList.length s.toList⟩

/-- Python `s.startswith(pre)`. -/
def pyStartsWith (s pre : String) : Bool :=
  pre.toList.isPrefixOf s.toList

/-- Python `s.endswith(suf)`. -/
def pyEndsWith (s suf : String) : Bool :=
  suf.toList.isSuffixOf s.toList

/-- Python `s.split(sep)` for a one-character separator: the result is never
empty and empty fields are kept, e.g. `"".split("/") == [""]`. -/
def pySplitChar (sep : Char) : List Char → List (List Char)
  | [] => [[]]
  | c :: cs =>
    match pySplitChar sep cs with
    | [] => [[c]]
    | h :: t => if c = sep then [] :: h :: t else (c :: h) :: t

/-- Truthiness of `d.get(k)` for a string-valued dict entry: `None` and the
empty string are falsy. -/
def truthyO : Option String → Bool
  | none => false
  | some s => s ≠ ""

/- ## criticmarkup.py -/

/-- Addition replacement, `criticmarkup.py` lines 63-79 (`Addition._sub`):
the four-branch policy on the captured VALUE of `{\x7b++VALUE++}\x7d`. -/
def additionSub (value : String) : String :=
  if pyStartsWith value "\n\n" ∧ value ≠ "\n\n" then
    "\n\n<ins class=\x27critic\x27 break>&nbsp;</ins>\n\n" ++
      ("<ins>" ++ pyReplace value "\n" " ") ++ "</ins>"
  else if value = "\n\n" then
    "\n\n<ins class=\x27critic break\x27>&nbsp;" ++ "</ins>\n\n"
  else if pyEndsWith value "\n\n" ∧ value ≠ "\n\n" then
    ("<ins>" ++ pyReplace value "\n" " " ++ "</ins>") ++
      "\n\n<ins class=\x27critic break\x27>&nbsp;</ins>\n\n"
  else
    "<ins>" ++ pyReplace value "\n" " " ++ "</ins>"

/-- Deletion replacement, `criticmarkup.py` lines 85-89 (`Deletion._sub`). -/
def deletionSub (value : String) : String :=
  if value = "\n\n" then "<del>&nbsp;</del>"
  else "<del>" ++ pyReplace value "\n\n" "&nbsp" ++ "</del>"

/-- Greedy run of characters matchable by the ORIGINAL body alternation
`(?:[^~>]|(?:~(?!>)))` of `SUBSTITUTION_RE` (`criticmarkup.py` line 34):
any character other than tilde and `>`, or a tilde not followed by `>`. -/
def takeOrig : List Char → List Char
  | [] => []
  | c :: cs =>
    if c ≠ '~' ∧ c ≠ '>' then c :: takeOrig cs
    else if c = '~' ∧ cs.head? ≠ some '>' then c :: takeOrig cs
    else []

/-- Greedy run of characters matchable by the NEW body alternation
`(?:[^~~]|(?:~(?!~\x7d)))` of `SUBSTITUTION_RE`: any character other than
tilde, or a tilde not followed by the two characters `~\x7d`. -/
def takeNew : List Char → List Char
  | [] => []
  | c :: cs =>
    if c ≠ '~' then c :: takeNew cs
    else if cs.take 2 ≠ ['~', '\x7d'] then c :: takeNew cs
    else []

/-- Attempt of `SUBSTITUTION_RE` at the head of the text.  The bodies are
one-character alternations whose admissibility is position-local, and the
delimiters `~>` and `~~\x7d` can never occur strictly inside an admissible
run, so the greedy `+` needs no backtracking: the maximal run must be
followed directly by the delimiter.  Returns (original, new, rest). -/
def matchSubstAt (l : List Char) : Option (List Char × List Char × List Char) :=
  match l with
  | '\x7b' :: '~' :: '~' :: l3 =>
    match takeOrig l3 with
    | [] => none
    | o0 :: o1 =>
      match l3.drop (o0 :: o1).length with
      | '~' :: '>' :: l4 =>
        match takeNew l4 with
        | [] => none
        | n0 :: n1 =>
          match l4.drop (n0 :: n1).length with
          | '~' :: '~' :: '\x7d' :: rest => some (o0 :: o1, n0 :: n1, rest)
          | _ => none
      | _ => none
  | _ => none

/-- Scanner for `SUBSTITUTION_RE.sub(self._sub, text)` (`Substitution.run`,
`criticmarkup.py` lines 106-110): leftmost non-overlapping matches, each
replaced by `<del>ORIGINAL</del><ins>NEW</ins>`; fuel is the text length,
adequate because every match consumes at least one character. -/
def substGo : Nat → List Char → List Char
  | 0, s => s
  | _, [] => []
  | f + 1, c :: cs =>
    match matchSubstAt (c :: cs) with
    | some (o, n, rest) =>
      ("<del>".toList ++ o ++ "</del><ins>".toList ++ n ++ "</ins>".toList) ++ substGo f rest
    | none => c :: substGo f cs

/-- The substitution pass over a whole text. -/
def substituteCritic (s : String) : String :=
  ⟨substGo s.toList.length s.toList⟩

/- ## smartembeds.py : dictionaries -/

/-- Lookup in a string-keyed association list modelling a Python dict. -/
def dget (d : List (String × String)) (k : String) : Option String :=
  match d.find? (fun p => p.1 = k) with
  | some p => some p.2
  | none => none

/-- Python `d[k] = v`: replace the value in place if the key exists,
otherwise append the new binding. -/
def dset (d : List (String × String)) (k : String) (v : String) :
    List (String × String) :=
  if (d.find? (fun p => p.1 = k)).isSome then
    d.map (fun p => if p.1 = k then (k, v) else p)
  else d ++ [(k, v)]

/-- Python `d.update(u)`: set every binding of `u` in order. -/
def dupdate (d u : List (String × String)) : List (String × String) :=
  u.foldl (fun acc p => dset acc p.1 p.2) d

/- ## smartembeds.py : attribute parsing (`_attributes`, lines 253-281) -/

/-- Values held by the working dict inside `_attributes`: every parameter is
a string except the growing `class` list. -/
inductive AVal where
  | str (v : String)
  | lst (vs : List String)

/-- Lookup in the `AVal`-valued working dict. -/
def avalGet (d : List (String × AVal)) (k : String) : Option AVal :=
  match d.find? (fun p => p.1 = k) with
  | some p => some p.2
  | none => none

/-- Assignment in the `AVal`-valued working dict. -/
def avalSet (d : List (String × AVal)) (k : String) (v : AVal) :
    List (String × AVal) :=
  if (d.find? (fun p => p.1 = k)).isSome then
    d.map (fun p => if p.1 = k then (k, v) else p)
  else d ++ [(k, v)]

/-- Character class `[a-zA-Z0-9_-]` of `reATTR` (`smartembeds.py` line 117). -/
def isWordChar (c : Char) : Bool :=
  ('a' ≤ c ∧ c ≤ 'z') ∨ ('A' ≤ c ∧ c ≤ 'Z') ∨ ('0' ≤ c ∧ c ≤ '9') ∨ c = '_' ∨ c = '-'

/-- Alternatives 3 and 4 of `reATTR` at a position whose maximal word run is
`w` and whose remainder is `r`: `name=\S+` if an equals sign with at least
one non-space character follows, otherwise the bare word itself. -/
def altUnquoted (w r : List Char) : Option (List Char × List Char) :=
  match r with
  | '=' :: t =>
    match t.takeWhile (fun c => ¬ isPyWs c) with
    | [] => some (w, r)
    | v0 :: v1 => some (w ++ '=' :: (v0 :: v1), t.drop (v0 :: v1).length)
  | _ => some (w, r)

/-- Match attempt of `reATTR` at the head of the scan position, in the
alternation order of line 117: `#word`, `name='quoted'`, `name=\S+`, bare
word.  The quantified pieces are maximal-munch because each is followed by a
character its own class excludes.  Returns (matched token, rest). -/
def matchAttrToken (s : List Char) : Option (List Char × List Char) :=
  match s with
  | '#' :: t =>
    match t.takeWhile isWordChar with
    | [] => none
    | w0 :: w1 => some ('#' :: (w0 :: w1), t.drop (w0 :: w1).length)
  | _ =>
    match s.takeWhile isWordChar with
    | [] => none
    | w0 :: w1 =>
      match s.drop (w0 :: w1).length with
      | '=' :: '\x27' :: t =>
        match t.takeWhile (fun c => c ≠ '\x27') with
        | [] => altUnquoted (w0 :: w1) ('=' :: '\x27' :: t)
        | v0 :: v1 =>
          match t.drop (v0 :: v1).length with
          | '\x27' :: rest =>
            some ((w0 :: w1) ++ '=' :: '\x27' :: ((v0 :: v1) ++ ['\x27']), rest)
          | _ => altUnquoted (w0 :: w1) ('=' :: '\x27' :: t)
      | r => altUnquoted (w0 :: w1) r
  
/-- Scanner for `reATTR.findall`: try a match at every position left to
right, skipping one character on failure and the whole token on success.
Fuel is the input length, adequate since tokens are non-empty. -/
def findTokens : Nat → List Char → List (List Char)
  | 0, _ => []
  | _, [] => []
  | f + 1, c :: cs =>
    match matchAttrToken (c :: cs) with
    | some (tok, rest) => tok :: findTokens f rest
    | none => findTokens f cs

/-- Body of the token loop of `_attributes` (lines 263-278) for one token:
`#x` sets `id`; a token with an equals sign sets a named parameter, reading
`[i+2:-1]` when a single quote follows the sign and `[i+1:]` otherwise (an
IndexError if nothing follows the sign, impossible for `reATTR` tokens); a
bare token is appended to the `class` list, an AttributeError if `class`
was set to a plain string earlier. -/
def procToken (attrs : List (String × AVal)) (tok : List Char) :
    Except PyErr (List (String × AVal)) :=
  match tok with
  | '#' :: rest => .ok (avalSet attrs "id" (.str ⟨rest⟩))
  | _ =>
    match pyFindIdx (fun c => c = '=') tok with
    | some i =>
      match tok.get? (i + 1) with
      | none => .error .index
      | some c =>
        if c = '\x27' then
          .ok (avalSet attrs ⟨tok.take i⟩ (.str ⟨(tok.drop (i + 2)).dropLast⟩))
        else
          .ok (avalSet attrs ⟨tok.take i⟩ (.str ⟨tok.drop (i + 1)⟩))
    | none =>
      match avalGet attrs "class" with
      | some (.str _) => .error .attr
      | some (.lst vs) => .ok (avalSet attrs "class" (.lst (vs ++ [⟨tok⟩])))
      | none => .ok (avalSet attrs "class" (.lst [⟨tok⟩]))

/-- Fold of `procToken` over the token list. -/
def procTokens (attrs : List (String × AVal)) :
    List (List Char) → Except PyErr (List (String × AVal))
  | [] => .ok attrs
  | t :: ts =>
    match procToken attrs t with
    | .error e => .error e
    | .ok a2 => procTokens a2 ts

/-- Python `' '.join(x)` where `x` is either the `class` list or — when
`class` was assigned via `class=...` — a plain string, which Python joins
character by character. -/
def joinAval : AVal → String
  | .lst vs => String.intercalate " " vs
  | .str v => ⟨List.intersperse ' ' v.toList⟩

/-- String value of a working-dict entry after the `class` join; keys other
than `class` are always `.str` by construction. -/
def avalStr : AVal → String
  | .str v => v
  | .lst vs => String.intercalate " " vs

/-- Final lines 279-281 of `_attributes`: space-join the `class` entry and
return the dict. -/
def finalizeAttrs (attrs : List (String × AVal)) : List (String × String) :=
  attrs.map (fun p => if p.1 = "class" then (p.1, joinAval p.2) else (p.1, avalStr p.2))

/-- Content of the leftmost `reATTRIBUTE_TITLE` match starting here, given
the characters after the two opening braces: the greedy `(.+)` takes the
longest non-empty newline-free prefix that is followed by two closing
braces, i.e. the prefix ending at the last such pair. -/
def findLastClose (s : List Char) : Option (List Char) :=
  let r := s.takeWhile (fun c => c ≠ '\n')
  let js := (List.range r.length).filter
    (fun j => 1 ≤ j && r.get? j = some '\x7d' && r.get? (j + 1) = some '\x7d')
  match js.getLast? with
  | some j => some (r.take j)
  | none => none

/-- Scanner for `reATTRIBUTE_TITLE.search` (`smartembeds.py` line 116,
pattern two opening braces, `(.+)`, two closing braces): the leftmost
position with a double-brace opener and a valid body wins. -/
def findDoubleBraced : List Char → Option (List Char)
  | [] => none
  | c :: cs =>
    if c = '\x7b' ∧ cs.head? = some '\x7b' then
      match findLastClose cs.tail with
      | some content => some content
      | none => findDoubleBraced cs
    else findDoubleBraced cs

/-- `SmartEmbedsPreprocessor._attributes` (lines 253-281): `None` or an
empty string yields no attributes, as does a segment without the
double-brace wrapper; otherwise tokenize the wrapped interior. -/
def pyAttributes : Option String → Except PyErr (List (String × String))
  | none => .ok []
  | some s =>
    if s = "" then .ok []
    else
      match findDoubleBraced s.toList with
      | none => .ok []
      | some inner =>
        match procTokens [] (findTokens inner.length inner) with
        | .error e => .error e
        | .ok attrs => .ok (finalizeAttrs attrs)

/- ## smartembeds.py : query-string parsing (Python 2 `urlparse.parse_qs`) -/

/-- Hex digit test of the `_hexdig` table used by Python 2 `unquote`. -/
def isHexDig (c : Char) : Bool :=
  ('0' ≤ c ∧ c ≤ '9') ∨ ('a' ≤ c ∧ c ≤ 'f') ∨ ('A' ≤ c ∧ c ≤ 'F')

/-- Numeric value of a hex digit. -/
def hexVal (c : Char) : Nat :=
  if '0' ≤ c ∧ c ≤ '9' then c.toNat - 48
  else if 'a' ≤ c ∧ c ≤ 'f' then c.toNat - 87
  else if 'A' ≤ c ∧ c ≤ 'F' then c.toNat - 55
  else 0

/-- One percent-separated part inside `unquote`: decode a leading pair of
hex digits, otherwise restore the literal percent sign. -/
def unquotePart (p : List Char) : List Char :=
  match p with
  | a :: b :: rest =>
    if isHexDig a ∧ isHexDig b then Char.ofNat (16 * hexVal a + hexVal b) :: rest
    else '%' :: p
  | _ => '%' :: p

/-- Python 2 `urllib.unquote`: split on percent signs and decode each tail
part. -/
def pyUnquote (s : List Char) : List Char :=
  match pySplitChar '%' s with
  | [] => s
  | first :: parts => first ++ parts.flatMap unquotePart

/-- The `unquote(nv.replace('+', ' '))` decoding step of `parse_qsl`. -/
def decodePart (p : List Char) : String :=
  ⟨pyUnquote (p.map (fun c => if c = '+' then ' ' else c))⟩

/-- Python 2 `urlparse.parse_qsl` with `keep_blank_values=1`: split the
query on ampersands and semicolons, drop empty fields, split each field on
the first equals sign (missing value becomes the empty string), decode. -/
def pyParseQsl (qs : List Char) : List (String × String) :=
  ((pySplitChar '&' qs).flatMap (pySplitChar ';')).filterMap (fun nv =>
    match nv with
    | [] => none
    | c :: cs =>
      match pyFindIdx (fun ch => ch = '=') (c :: cs) with
      | some i => some (decodePart ((c :: cs).take i), decodePart ((c :: cs).drop (i + 1)))
      | none => some (decodePart (c :: cs), ""))

/-- Append a value to the list held under a key, as `parse_qs` does. -/
def qdAdd (d : List (String × List String)) (k : String) (v : String) :
    List (String × List String) :=
  if (d.find? (fun p => p.1 = k)).isSome then
    d.map (fun p => if p.1 = k then (p.1, p.2 ++ [v]) else p)
  else d ++ [(k, [v])]

/-- Python 2 `urlparse.parse_qs` with `keep_blank_values=1`. -/
def pyParseQs (qs : List Char) : List (String × List String) :=
  (pyParseQsl qs).foldl (fun d p => qdAdd d p.1 p.2) []

/- ## smartembeds.py : provider identifier derivation (lines 212-248) -/

/-- `SmartEmbedsPreprocessor._youtube` (lines 232-239): the `v` query
parameter of the URL, or the empty string without a query string or `v`
entry.  The lists built by `pyParseQs` are never empty, matching the `[0]`
indexing. -/
def youtubeId (url : String) : String :=
  match pyFindIdx (fun c => c = '?') url.toList with
  | none => ""
  | some i =>
    match (pyParseQs (url.toList.drop (i + 1))).find? (fun p => p.1 = "v") with
    | some p => p.2.headD ""
    | none => ""

/-- `SmartEmbedsPreprocessor._vimeo` (lines 241-248): last slash-separated
segment of the URL, truncated at its first question mark. -/
def vimeoId (url : String) : String :=
  match pyFindIdx (fun c => c = '?') ((pySplitChar '/' url.toList).getLastD []) with
  | some i => ⟨((pySplitChar '/' url.toList).getLastD []).take i⟩
  | none => ⟨(pySplitChar '/' url.toList).getLastD []⟩

/-- `SmartEmbedsPreprocessor._slideshare` (lines 212-230): reconcile the
raw `id` and the DOM-prefixed `sid` when exactly one of them is non-empty. -/
def slideshareExtra (_url : String) (params : List (String × String)) :
    List (String × String) :=
  let idO := dget params "id"
  let sidO := dget params "sid"
  if truthyO idO then
    if truthyO sidO then []
    else
      let idv := idO.getD ""
      if pyStartsWith idv "__ss_" then [("sid", idv), ("id", ⟨idv.toList.drop 5⟩)]
      else [("sid", "__ss_" ++ idv)]
  else if truthyO sidO then
    let sidv := sidO.getD ""
    if pyStartsWith sidv "__ss_" then [("id", ⟨sidv.toList.drop 5⟩)]
    else [("id", sidv), ("sid", "__ss_" ++ sidv)]
  else []

/- ## smartembeds.py : templates and %-formatting -/

/-- `_PDF_EMBED_TEMPLATE` (lines 119-123). -/
def PDF_T : String :=
  "<div class=\x27embedded smartembed pdf\x27>\n<iframe src=\"http://docs.google.com/gview?embedded=true&url=%(url)s&\" width=\"%(width)s\" height=\"%(height)s\" frameborder=\"0\" marginwidth=\"0\" marginheight=\"0\"></iframe>\n<div class=\"smartembed-ref-pdf\"><a href=\"%(url)s\" rel=\"nofollow external\" target=\"_blank\">Download PDF</a></div>\n</div>\n"

/-- `_SLIDESHARE_EMBED_TEMPLATE` (lines 125-129). -/
def SLIDESHARE_T : String :=
  "<div class=\"embedded smartembed slideshare\" style=\"width:%(width)spx\" id=\"%(sid)s\">\n<iframe class=\"smartembed slideshare\" src=\"http://www.slideshare.net/slideshow/embed_code/%(id)s?rel=0\" width=\"%(width)s\" height=\"%(height)s\" frameborder=\"0\" marginwidth=\"0\" marginheight=\"0\" scrolling=\"no\"></iframe>\n<div class=\"smartembed-ref-slideshare\"><a href=\"%(url)s\" rel=\"nofollow external\" target=\"_blank\">%(title)s</a></div>\n</div>\n"

/-- `_SLIDESHARE_EMBED_NOID_TEMPLATE` (line 131). -/
def SLIDESHARE_NOID_T : String :=
  "<a href=\"%(url)s\" rel=\"nofollow external\" target=\"_blank\">%(title)s</a>"

/-- `_SPEAKERDECK_EMBED_TEMPLATE` (lines 133-137). -/
def SPEAKERDECK_T : String :=
  "<div class=\"embedded smartembed speakerdeck\">\n<script src=\"http://speakerdeck.com/embed/%(id)s.js\"></script>\n<div class=\"smartembed-ref-speakerdeck\"><a href=\"%(url)s\" rel=\"nofollow external\" target=\"_blank\">%(title)s</a></div>\n</div>\n"

/-- `_SPEAKERDECK_EMBED_NOID_TEMPLATE` (line 139). -/
def SPEAKERDECK_NOID_T : String :=
  "<a href=\"%(url)s\" rel=\"nofollow external\" target=\"_blank\">%(title)s</a>"

/-- `_VIMEO_EMBED_TEMPLATE` (lines 141-145). -/
def VIMEO_T : String :=
  "<div class=\"embedded smartembed vimeo\">\n<iframe src=\"http://player.vimeo.com/video/%(id)s?title=0&amp;byline=0&amp;portrait=0\" width=\"%(width)s\" height=\"%(height)s\" frameborder=\"0\" webkitAllowFullScreen mozallowfullscreen allowFullScreen></iframe>\n<div class=\"smartembed-ref-vimeo\"><a href=\"%(url)s\" rel=\"nofollow external\" target=\"_blank\">%(title)s</a></div>\n</div>\n"

/-- `_YOUTUBE_EMBED_TEMPLATE` (lines 147-150). -/
def YOUTUBE_T : String :=
  "<div class=\"embedded smartembed youtube\">\n<iframe class=\"youtube-player\" type=\"text/html\" width=\"%(width)s\" height=\"%(height)s\" src=\"http://www.youtube.com/embed/%(id)s\" frameborder=\"0\"></iframe>\n</div>\n"

/-- `_TEMPLATES.get(key, "")` (lines 152-160). -/
def templateFor (p : String) : String :=
  if p = "pdf" then PDF_T
  else if p = "slideshare" then SLIDESHARE_T
  else if p = "slideshare_noid" then SLIDESHARE_NOID_T
  else if p = "speakerdeck" then SPEAKERDECK_T
  else if p = "speakerdeck_noid" then SPEAKERDECK_NOID_T
  else if p = "vimeo" then VIMEO_T
  else if p = "youtube" then YOUTUBE_T
  else ""

/-- `_DEFAULT_PARAMS.get(key, {\x7b}\x7d)` (lines 162-168). -/
def defaultsFor (p : String) : List (String × String) :=
  if p = "pdf" then [("width", "520"), ("height", "675")]
  else if p = "slideshare" then [("id", ""), ("sid", ""), ("width", "520"), ("height", "435")]
  else if p = "speakerdeck" then [("id", "")]
  else if p = "vimeo" then [("width", "520"), ("height", "390")]
  else if p = "youtube" then [("width", "520"), ("height", "390")]
  else []

/-- Worker for Python `template % params` restricted to the `%(name)s` and
`%%` directives, the only ones occurring in the templates; a missing key is
a KeyError.  Fuel is the template length. -/
def pyFormatGo (d : List (String × String)) : Nat → List Char → Except PyErr (List Char)
  | 0, s => .ok s
  | _, [] => .ok []
  | f + 1, c :: cs =>
    if c = '%' then
      match cs with
      | '(' :: r2 =>
        match r2.takeWhile (fun ch => ch ≠ ')') with
        | name =>
          match r2.drop name.length with
          | ')' :: 's' :: r3 =>
            match dget d ⟨name⟩ with
            | some v =>
              match pyFormatGo d f r3 with
              | .ok out => .ok (v.toList ++ out)
              | .error e => .error e
            | none => .error .key
          | _ => .error .format
      | '%' :: r2 =>
        match pyFormatGo d f r2 with
        | .ok out => .ok ('%' :: out)
        | .error e => .error e
      | _ => .error .format
    else
      match pyFormatGo d f cs with
      | .ok out => .ok (c :: out)
      | .error e => .error e

/-- Python `template % params` over the association-list dict. -/
def pyFormat (t : String) (d : List (String × String)) : Except PyErr String :=
  match pyFormatGo d t.toList.length t.toList with
  | .ok out => .ok ⟨out⟩
  | .error e => .error e

/- ## smartembeds.py : the directive regex `_reSMARTEMBED` (lines 107-113) -/

/-- Content and rest of the optional quoted segment `((["\x27])(.*?)\5)`:
the lazy body stops at the first closing quote that is directly followed by
the final closing parenthesis, and the dot cannot cross a newline. -/
def findQuoteEnd (q : Char) : List Char → Option (List Char × List Char)
  | [] => none
  | c :: cs =>
    if c = q ∧ cs.head? = some ')' then some ([], cs.tail)
    else if c = '\n' then none
    else
      match findQuoteEnd q cs with
      | some (content, rest) => some (c :: content, rest)
      | none => none

/-- Attempt of the regex tail `>?\s*((["\x27])(.*?)\5)?\)` at a fixed end of
the lazy URL group.  Each quantified piece here is deterministic: declining
an available `>` leaves a character no later alternative accepts, a shorter
whitespace run leaves a whitespace character where only a quote or the
closing parenthesis may stand, and the optional quoted group can only
succeed when a quote character is present.  Returns the optional captured
group 6 and the rest after the parenthesis. -/
def embedTail (s : List Char) : Option (Option (List Char) × List Char) :=
  let s1 := match s with
    | '>' :: t => t
    | _ => s
  let s2 := s1.dropWhile isPyWs
  match s2 with
  | [] => none
  | c :: t =>
    if c = '\x27' ∨ c = '\x22' then
      match findQuoteEnd c t with
      | some (content, rest) => some (some content, rest)
      | none => none
    else if c = ')' then some (none, t)
    else none

/-- The lazy URL group `(.*?)` followed by `embedTail`: try the tail at the
current position first, then extend the URL by one non-newline character
and retry.  Returns the captured URL and the optional quoted segment. -/
def embedUrlLoop (acc : List Char) : List Char → Option (List Char × Option (List Char))
  | [] => none
  | c :: cs =>
    match embedTail (c :: cs) with
    | some (attrs, _) => some (acc.reverse, attrs)
    | none =>
      if c = '\n' then none
      else embedUrlLoop (c :: acc) cs

/-- `_reSMARTEMBED.match(l)` (line 113), returning the groups used by
`_extract`: protocol (group 1), title (group 2), URL (group 3) and the
quoted attribute segment (group 6).  The leading pieces are deterministic:
`\s*` before a non-whitespace `@`, `([^:]+)` before the required colon,
`[([^\[\]]*)]` before the required closing bracket are all maximal munch,
the lookbehind `(?<!\!)` always holds after the colon, and declining an
available `<` after the parenthesis never helps. -/
def matchSmartEmbed (l : List Char) : Option (String × String × String × Option String) :=
  match l.dropWhile isPyWs with
  | '@' :: r2 =>
    match r2.takeWhile (fun c => c ≠ ':') with
    | [] => none
    | p0 :: p1 =>
      match r2.drop (p0 :: p1).length with
      | ':' :: '[' :: r5 =>
        let title := r5.takeWhile (fun c => c ≠ '[' ∧ c ≠ ']')
        match r5.drop title.length with
        | ']' :: '(' :: r7 =>
          let r8 := match r7 with
            | '<' :: t => t
            | _ => r7
          match embedUrlLoop [] r8 with
          | some (url, attrs) =>
            some (⟨p0 :: p1⟩, ⟨title⟩, ⟨url⟩, attrs.map (fun a => ⟨a⟩))
          | none => none
        | _ => none
      | _ => none
  | _ => none

/- ## smartembeds.py : the processing pipeline (lines 174-209) -/

/-- `_KNOWN_PROTOCOLS` (line 96). -/
def KNOWN_PROTOCOLS : List String :=
  ["slideshare", "pdf", "youtube", "vimeo", "speakerdeck"]

/-- Parameter layering of `_process` before the protocol branch: title and
URL from the directive, then the protocol defaults, then the parsed
attributes (lines 194-196). -/
def embedParams (proto title url : String) (ad : List (String × String)) :
    List (String × String) :=
  dupdate (dupdate [("title", title), ("url", url)] (defaultsFor proto)) ad

/-- Protocol branch of `_process` (lines 197-207): derive identifiers and
pick the template key, falling back to the no-id variant when `slideshare`
or `speakerdeck` still lacks a non-empty `id`. -/
def resolveEmbed (proto title url : String) (ad : List (String × String)) :
    String × List (String × String) :=
  let params := embedParams proto title url ad
  if proto = "vimeo" then (proto, dupdate params [("id", vimeoId url)])
  else if proto = "youtube" then (proto, dupdate params [("id", youtubeId url)])
  else if proto = "slideshare" then
    let p2 := dupdate params (slideshareExtra url params)
    (if truthyO (dget p2 "id") then proto else "slideshare_noid", p2)
  else if proto = "speakerdeck" then
    (if truthyO (dget params "id") then proto else "speakerdeck_noid", params)
  else (proto, params)

/-- `SmartEmbedsPreprocessor._process` (lines 192-209). -/
def processEmbed (proto title url : String) (attrs : Option String) :
    Except PyErr String :=
  match pyAttributes attrs with
  | .error e => .error e
  | .ok ad =>
    match resolveEmbed proto title url ad with
    | (p, d) => pyFormat (templateFor p) d

/-- One iteration of the `run` loop (lines 177-189): the guard
`if l and l.lstrip()[0] == '@'` raises IndexError on a non-empty line of
pure whitespace; otherwise a line is replaced only when the directive regex
matches with a known protocol. -/
def procLine (l : String) : Except PyErr String :=
  if l = "" then .ok l
  else
    match l.toList.dropWhile isPyWs with
    | [] => .error .index
    | c :: _ =>
      if c = '@' then
        match matchSmartEmbed l.toList with
        | some (proto, title, url, attrs) =>
          if KNOWN_PROTOCOLS.contains proto then processEmbed proto title url attrs
          else .ok l
        | none => .ok l
      else .ok l

/-- Effectful map over the line list, aborting at the first raised
exception, as the Python for-loop does. -/
def mapExcept (f : String → Except PyErr String) :
    List String → Except PyErr (List String)
  | [] => .ok []
  | a :: as =>
    match f a with
    | .error e => .error e
    | .ok b =>
      match mapExcept f as with
      | .error e => .error e
      | .ok bs => .ok (b :: bs)

/-- `SmartEmbedsPreprocessor.run` (lines 174-190). -/
def runSmartEmbeds (lines : List String) : Except PyErr (List String) :=
  mapExcept procLine lines

/- ## Helper lemmas -/

/-- Dropping as many characters as the `takeWhile` prefix is `dropWhile`. -/
theorem drop_takeWhile_len (p : Char → Bool) (l : List Char) :
    l.drop (l.takeWhile p).length = l.dropWhile p := by
  induction l with
  | nil => rfl
  | cons c cs ih =>
    by_cases h : p c = true
    · simp [List.takeWhile_cons, List.dropWhile_cons, h, ih]
    · simp [List.takeWhile_cons, List.dropWhile_cons, h]

/-- A key just assigned reads back its new value. -/
theorem dget_dset_self (d : List (String × String)) (k v : String) :
    dget (dset d k v) k = some v := by
  unfold dset
  by_cases h : (d.find? (fun p => p.1 = k)).isSome
  · simp only [h, if_true]
    induction d with
    | nil => simp at h
    | cons hd tl ih =>
      by_cases hk : hd.1 = k
      · simp [dget, List.find?, hk]
      · simp only [List.map_cons, if_neg hk]
        have : (tl.find? (fun p => p.1 = k)).isSome := by
          simpa [List.find?, hk] using h
        simpa [dget, List.find?, hk] using ih this
  · simp only [h, if_false]
    induction d with
    | nil => simp [dget, List.find?]
    | cons hd tl ih =>
      have hk : ¬ hd.1 = k := by
        intro hcontra
        simp [List.find?, hcontra] at h
      have : ¬ (tl.find? (fun p => p.1 = k)).isSome := by
        simpa [List.find?, hk] using h
      simpa [dget, List.find?, hk] using ih this

/-- Updating with a singleton dict is a single assignment. -/
theorem dupdate_single (d : List (String × String)) (k v : String) :
    dupdate d [(k, v)] = dset d k v := rfl

/- ## Claim theorems -/

/-- C1: refuted by the code — `run` is not exception-free.  On a non-empty
line holding only whitespace, the guard `l.lstrip()[0]` indexes into an
empty string and raises IndexError, and a directive whose attribute block
assigns `class=` and then adds a bare token raises AttributeError inside
`_attributes`; lines that do not parse as a known-protocol directive do
pass through unchanged. -/
theorem run_raises_on_blank_line :
    runSmartEmbeds ["  "] = .error .index ∧
    runSmartEmbeds ["@pdf:[T](http://x \"\x7b\x7bclass=a b\x7d\x7d\")"] = .error .attr ∧
    runSmartEmbeds ["hello world"] = .ok ["hello world"] ∧
    runSmartEmbeds ["@dailymotion:[T](http://x)"] = .ok ["@dailymotion:[T](http://x)"] := by
  refine ⟨rfl, rfl, rfl, rfl⟩

/-- C3: for a matched deletion VALUE, exactly `"\n\n"` becomes
`<del>&nbsp;</del>`, and otherwise the VALUE is wrapped in `<del>` tags
with every double newline replaced by the (semicolon-free) entity `&nbsp`,
all other characters unchanged; in particular `"\n\nX\n\n"` becomes
`<del>&nbspX&nbsp</del>`. -/
theorem deletion_sub_spec (v : String) :
    (v = "\n\n" → deletionSub v = "<del>&nbsp;</del>") ∧
    (v ≠ "\n\n" → deletionSub v = "<del>" ++ pyReplace v "\n\n" "&nbsp" ++ "</del>") ∧
    deletionSub "\n\nX\n\n" = "<del>&nbspX&nbsp</del>" := by
  refine ⟨fun h => by simp [deletionSub, h], fun h => by simp [deletionSub, h], by decide⟩

/-- Witness for C3 at concrete inputs. -/
theorem deletion_sub_spec_witness :
    deletionSub "\n\n" = "<del>&nbsp;</del>" ∧ deletionSub "ab" = "<del>ab</del>" := by
  constructor
  · exact (deletion_sub_spec "\n\n").1 rfl
  · have h := (deletion_sub_spec "ab").2.1 (by decide)
    rw [h]
    decide

/-- Exactly one of four conditions holds. -/
def exactlyOne4 (a b c d : Prop) : Prop :=
  (a ∧ ¬b ∧ ¬c ∧ ¬d) ∨ (¬a ∧ b ∧ ¬c ∧ ¬d) ∨ (¬a ∧ ¬b ∧ c ∧ ¬d) ∨ (¬a ∧ ¬b ∧ ¬c ∧ d)

/-- C2: for a matched addition VALUE the four cases of the policy, taken in
the checking order of the code (leading double newline and not exactly one;
exactly one; trailing double newline and not exactly one nor leading;
otherwise), are mutually exclusive and exhaustive, each condition a Boolean
combination of the three atomic tests, and each case emits exactly the
specified replacement, with every newline of VALUE replaced by one space
inside the `<ins>` wrapper. -/
theorem addition_cases (v : String) :
    ((pyStartsWith v "\n\n" = true ∧ v ≠ "\n\n") →
      additionSub v =
        "\n\n<ins class=\x27critic\x27 break>&nbsp;</ins>\n\n" ++
          ("<ins>" ++ pyReplace v "\n" " ") ++ "</ins>") ∧
    (v = "\n\n" →
      additionSub v = "\n\n<ins class=\x27critic break\x27>&nbsp;</ins>\n\n") ∧
    ((pyEndsWith v "\n\n" = true ∧ v ≠ "\n\n" ∧ pyStartsWith v "\n\n" = false) →
      additionSub v =
        ("<ins>" ++ pyReplace v "\n" " " ++ "</ins>") ++
          "\n\n<ins class=\x27critic break\x27>&nbsp;</ins>\n\n") ∧
    ((v ≠ "\n\n" ∧ pyStartsWith v "\n\n" = false ∧ pyEndsWith v "\n\n" = false) →
      additionSub v = "<ins>" ++ pyReplace v "\n" " " ++ "</ins>") ∧
    exactlyOne4 (pyStartsWith v "\n\n" = true ∧ v ≠ "\n\n") (v = "\n\n")
      (pyEndsWith v "\n\n" = true ∧ v ≠ "\n\n" ∧ pyStartsWith v "\n\n" = false)
      (v ≠ "\n\n" ∧ pyStartsWith v "\n\n" = false ∧ pyEndsWith v "\n\n" = false) := by
  by_cases hE : v = "\n\n"
  · subst hE
    refine ⟨fun h => absurd rfl h.2, fun _ => by decide, fun h => absurd rfl h.2.1,
      fun h => absurd rfl h.1, ?_⟩
    refine Or.inr (Or.inl ⟨fun h => absurd rfl h.2, rfl, fun h => absurd rfl h.2.1,
      fun h => absurd rfl h.1⟩)
  · by_cases hS : pyStartsWith v "\n\n" = true
    · refine ⟨fun _ => by simp [additionSub, hS, hE], fun h => absurd h hE,
        fun h => by simp [hS] at h, fun h => by simp [hS] at h, ?_⟩
      exact Or.inl ⟨⟨hS, hE⟩, hE, fun h => by simp [hS] at h, fun h => by simp [hS] at h⟩
    · have hS' : pyStartsWith v "\n\n" = false := by simpa using hS
      by_cases hT : pyEndsWith v "\n\n" = true
      · refine ⟨fun h => absurd h.1 hS, fun h => absurd h hE,
          fun _ => by simp [additionSub, hS', hE, hT], fun h => by simp [hT] at h, ?_⟩
        refine Or.inr (Or.inr (Or.inl ⟨fun h => absurd h.1 hS, hE, ⟨hT, hE, hS'⟩,
          fun h => by simp [hT] at h⟩))
      · have hT' : pyEndsWith v "\n\n" = false := by simpa using hT
        refine ⟨fun h => absurd h.1 hS, fun h => absurd h hE, fun h => absurd h.1 hT,
          fun _ => by simp [additionSub, hS', hE, hT'], ?_⟩
        refine Or.inr (Or.inr (Or.inr ⟨fun h => absurd h.1 hS, hE,
          fun h => absurd h.1 hT, ⟨hE, hS', hT'⟩⟩))

/-- Witness for C2: a value with no double newlines lands in the fourth
case. -/
theorem addition_cases_witness :
    (("hello" : String) ≠ "\n\n" ∧ pyStartsWith "hello" "\n\n" = false ∧
      pyEndsWith "hello" "\n\n" = false) ∧
    additionSub "hello" = "<ins>" ++ pyReplace "hello" "\n" " " ++ "</ins>" :=
  ⟨by decide, (addition_cases "hello").2.2.2.1 (by decide)⟩

/-- The default value of `getLastD` is irrelevant on a non-empty list. -/
theorem getLastD_cons_ne_nil {α : Type} (l : List α) (a d : α) (h : l ≠ []) :
    (a :: l).getLastD d = l.getLastD d := by
  cases l with
  | nil => exact absurd rfl h
  | cons b t => rfl

/-- A Python split is never the empty list. -/
theorem pySplitChar_ne_nil (sep : Char) (l : List Char) : pySplitChar sep l ≠ [] := by
  induction l with
  | nil => simp [pySplitChar]
  | cons c cs ih =>
    simp only [pySplitChar]
    cases h : pySplitChar sep cs with
    | nil => simp
    | cons hd tl => by_cases hc : c = sep <;> simp [hc]

/-- Splitting a list free of the separator yields that single field. -/
theorem pySplitChar_no_sep (sep : Char) (l : List Char) (h : ∀ c ∈ l, c ≠ sep) :
    pySplitChar sep l = [l] := by
  induction l with
  | nil => rfl
  | cons c cs ih =>
    have hc : c ≠ sep := h c (List.mem_cons_self c cs)
    have ih2 := ih (fun x hx => h x (List.mem_cons_of_mem c hx))
    simp [pySplitChar, ih2, hc]

/-- A list containing the separator splits into at least two fields. -/
theorem two_le_pySplitChar_length (sep : Char) (l : List Char) (h : sep ∈ l) :
    2 ≤ (pySplitChar sep l).length := by
  induction l with
  | nil => simp at h
  | cons c cs ih =>
    simp only [pySplitChar]
    cases hr : pySplitChar sep cs with
    | nil => exact absurd hr (pySplitChar_ne_nil sep cs)
    | cons hd tl =>
      by_cases hc : c = sep
      · simp [hc]
      · have hmem : sep ∈ cs := by
          rcases List.mem_cons.mp h with h1 | h2
          · exact absurd h1.symm hc
          · exact h2
        have := ih hmem
        rw [hr] at this
        simpa [hc] using this

/-- The last split field after an explicit separator is the last field of
the tail after that separator. -/
theorem getLastD_pySplitChar_append (sep : Char) (xs ys : List Char) :
    (pySplitChar sep (xs ++ sep :: ys)).getLastD [] =
      (pySplitChar sep ys).getLastD [] := by
  induction xs with
  | nil =>
    simp only [List.nil_append, pySplitChar]
    cases h : pySplitChar sep ys with
    | nil => exact absurd h (pySplitChar_ne_nil sep ys)
    | cons hd tl => simp
  | cons x xs ih =>
    simp only [List.cons_append, pySplitChar]
    cases hr : pySplitChar sep (xs ++ sep :: ys) with
    | nil => exact absurd hr (pySplitChar_ne_nil sep _)
    | cons hd tl =>
      have htl : tl ≠ [] := by
        have h2 := two_le_pySplitChar_length sep (xs ++ sep :: ys)
          (by simp)
        rw [hr] at h2
        intro hnil
        rw [hnil] at h2
        simp at h2
      rw [← ih, hr]
      by_cases hc : x = sep
      · simp only [hc, if_pos rfl]
        rfl
      · simp only [if_neg hc]
        rw [getLastD_cons_ne_nil tl (x :: hd) [] htl, getLastD_cons_ne_nil tl hd [] htl]

/-- C5: slideshare identifier reconciliation as a function of which of `id`
and `sid` is non-empty, together with the concrete `id=__ss_999` example
from the spec: the attribute resolves to `id=999`, `sid=__ss_999`. -/
theorem slideshare_reconciliation (u i s : String) (params : List (String × String)) :
    (dget params "id" = some i → i ≠ "" → truthyO (dget params "sid") = false →
      pyStartsWith i "__ss_" = true →
      slideshareExtra u params = [("sid", i), ("id", ⟨i.toList.drop 5⟩)]) ∧
    (dget params "id" = some i → i ≠ "" → truthyO (dget params "sid") = false →
      pyStartsWith i "__ss_" = false →
      slideshareExtra u params = [("sid", "__ss_" ++ i)]) ∧
    (truthyO (dget params "id") = false → dget params "sid" = some s → s ≠ "" →
      pyStartsWith s "__ss_" = true →
      slideshareExtra u params = [("id", ⟨s.toList.drop 5⟩)]) ∧
    (truthyO (dget params "id") = false → dget params "sid" = some s → s ≠ "" →
      pyStartsWith s "__ss_" = false →
      slideshareExtra u params = [("id", s), ("sid", "__ss_" ++ s)]) ∧
    (truthyO (dget params "id") = false → truthyO (dget params "sid") = false →
      slideshareExtra u params = []) ∧
    (truthyO (dget params "id") = true → truthyO (dget params "sid") = true →
      slideshareExtra u params = []) ∧
    pyAttributes (some "\x7b\x7bid=__ss_999\x7d\x7d") = .ok [("id", "__ss_999")] ∧
    dget (resolveEmbed "slideshare" "Title" "http://x" [("id", "__ss_999")]).2 "id" =
      some "999" ∧
    dget (resolveEmbed "slideshare" "Title" "http://x" [("id", "__ss_999")]).2 "sid" =
      some "__ss_999" := by
  refine ⟨?_, ?_, ?_, ?_, ?_, ?_, by rfl, by rfl, by rfl⟩
  · intro h1 h2 h3 h4
    simp only [slideshareExtra]
    rw [h1, h3]
    simp [truthyO, h2, h4]
  · intro h1 h2 h3 h4
    simp only [slideshareExtra]
    rw [h1, h3]
    simp [truthyO, h2, h4]
  · intro h1 h2 h3 h4
    simp only [slideshareExtra]
    rw [h1, h2]
    simp [truthyO, h3, h4]
  · intro h1 h2 h3 h4
    simp only [slideshareExtra]
    rw [h1, h2]
    simp [truthyO, h3, h4]
  · intro h1 h2
    simp only [slideshareExtra]
    rw [h1, h2]
    simp
  · intro h1 h2
    simp only [slideshareExtra]
    rw [h1, h2]
    simp

/-- Witness for C5: the prefixed identifier splits into `sid` and raw
id. -/
theorem slideshare_reconciliation_witness :
    slideshareExtra "http://x" [("id", "__ss_999")] = [("sid", "__ss_999"), ("id", "999")] := by
  have h := (slideshare_reconciliation "http://x" "__ss_999" "" [("id", "__ss_999")]).1
    (by decide) (by decide) (by decide) (by decide)
  exact h.trans (by decide)

/-- C6: when a slideshare or speakerdeck directive still has no non-empty
`id` after attribute layering (and, for slideshare, reconciliation), the
no-id template key is selected; concretely, both protocols with no
attribute block render as the bare attributed link. -/
theorem noid_fallback :
    (∀ (t u : String) (ad : List (String × String)),
      truthyO (dget (embedParams "speakerdeck" t u ad) "id") = false →
      resolveEmbed "speakerdeck" t u ad =
        ("speakerdeck_noid", embedParams "speakerdeck" t u ad)) ∧
    (∀ (t u : String) (ad : List (String × String)),
      truthyO (dget (dupdate (embedParams "slideshare" t u ad)
          (slideshareExtra u (embedParams "slideshare" t u ad))) "id") = false →
      resolveEmbed "slideshare" t u ad =
        ("slideshare_noid", dupdate (embedParams "slideshare" t u ad)
          (slideshareExtra u (embedParams "slideshare" t u ad)))) ∧
    runSmartEmbeds ["@speakerdeck:[Title](http://x)"] =
      .ok ["<a href=\"http://x\" rel=\"nofollow external\" target=\"_blank\">Title</a>"] ∧
    runSmartEmbeds ["@slideshare:[Title](http://x)"] =
      .ok ["<a href=\"http://x\" rel=\"nofollow external\" target=\"_blank\">Title</a>"] := by
  refine ⟨?_, ?_, by rfl, by rfl⟩
  · intro t u ad h
    simp [resolveEmbed, h]
  · intro t u ad h
    simp [resolveEmbed, h]

/-- Witness for C6 with no attributes at all. -/
theorem noid_fallback_witness :
    resolveEmbed "speakerdeck" "T" "http://u" [] =
      ("speakerdeck_noid", embedParams "speakerdeck" "T" "http://u" []) :=
  noid_fallback.1 "T" "http://u" [] (by rfl)

/-- C7: the youtube identifier is the `v` query parameter of the URL, empty
when the URL has no query string or no `v` entry; the derived identifier
overrides any attribute-supplied `id` (it is layered last), while
attribute-supplied width and height override the defaults, as the concrete
directive from the spec shows. -/
theorem youtube_id_resolution :
    (∀ url : String, pyFindIdx (fun c => c = '?') url.toList = none → youtubeId url = "") ∧
    (∀ (url : String) (i : Nat), pyFindIdx (fun c => c = '?') url.toList = some i →
      (pyParseQs (url.toList.drop (i + 1))).find? (fun p => p.1 = "v") = none →
      youtubeId url = "") ∧
    (∀ (t u : String) (ad : List (String × String)),
      dget (resolveEmbed "youtube" t u ad).2 "id" = some (youtubeId u)) ∧
    runSmartEmbeds
        ["@youtube:[Title](http://x/watch?v=ABC123 \"\x7b\x7bwidth=300 height=200\x7d\x7d\")"] =
      .ok ["<div class=\"embedded smartembed youtube\">\n<iframe class=\"youtube-player\" type=\"text/html\" width=\"300\" height=\"200\" src=\"http://www.youtube.com/embed/ABC123\" frameborder=\"0\"></iframe>\n</div>\n"] := by
  refine ⟨?_, ?_, ?_, by rfl⟩
  · intro url h
    simp only [String.toList] at h
    simp [youtubeId, h]
  · intro url i h1 h2
    simp only [String.toList] at h1 h2
    simp [youtubeId, h1, h2]
  · intro t u ad
    have h := dget_dset_self (embedParams "youtube" t u ad) "id" (youtubeId u)
    rw [← dupdate_single] at h
    simpa [resolveEmbed] using h

/-- Witness for C7 on a URL without a query string. -/
theorem youtube_id_resolution_witness :
    pyFindIdx (fun c => c = '?') ("http://x" : String).toList = none ∧
    youtubeId "http://x" = "" :=
  ⟨by rfl, youtube_id_resolution.1 "http://x" (by rfl)⟩

/-- C8: the vimeo identifier is the last slash-separated segment of the URL
stripped at its first question mark (the index `pyFindIdx` finds), and it
overrides any attribute-supplied `id`. -/
theorem vimeo_id_resolution :
    (∀ pre seg : List Char, (∀ c ∈ seg, c ≠ '/') →
      pyFindIdx (fun c => c = '?') seg = none →
      vimeoId ⟨pre ++ '/' :: seg⟩ = ⟨seg⟩) ∧
    (∀ (pre seg : List Char) (i : Nat), (∀ c ∈ seg, c ≠ '/') →
      pyFindIdx (fun c => c = '?') seg = some i →
      vimeoId ⟨pre ++ '/' :: seg⟩ = ⟨seg.take i⟩) ∧
    (∀ (t u : String) (ad : List (String × String)),
      dget (resolveEmbed "vimeo" t u ad).2 "id" = some (vimeoId u)) ∧
    vimeoId "http://vimeo.com/35782590" = "35782590" ∧
    vimeoId "http://vimeo.com/35782590?x=1" = "35782590" := by
  have hlast : ∀ pre seg : List Char, (∀ c ∈ seg, c ≠ '/') →
      ((pySplitChar '/' (pre ++ '/' :: seg)).getLastD []) = seg := by
    intro pre seg h
    rw [getLastD_pySplitChar_append, pySplitChar_no_sep '/' seg h]
    rfl
  refine ⟨?_, ?_, ?_, by rfl, by rfl⟩
  · intro pre seg h hfind
    show vimeoId ⟨pre ++ '/' :: seg⟩ = ⟨seg⟩
    simp only [vimeoId, String.toList]
    rw [hlast pre seg h, hfind]
  · intro pre seg i h hfind
    simp only [vimeoId, String.toList]
    rw [hlast pre seg h, hfind]
  · intro t u ad
    have h := dget_dset_self (embedParams "vimeo" t u ad) "id" (vimeoId u)
    rw [← dupdate_single] at h
    simpa [resolveEmbed] using h

/-- Witness for C8 on a concrete split URL. -/
theorem vimeo_id_resolution_witness :
    vimeoId ⟨"http://vimeo.com".toList ++ '/' :: "35782590".toList⟩ = "35782590" :=
  vimeo_id_resolution.1 "http://vimeo.com".toList "35782590".toList
    (by decide) (by rfl)

/-- The maximal-munch prefix and the remainder reassemble the input. -/
theorem takeWhile_append_drop_self (p : Char → Bool) (l : List Char) :
    l.takeWhile p ++ l.drop (l.takeWhile p).length = l := by
  rw [drop_takeWhile_len]
  exact List.takeWhile_append_dropWhile p l

/-- First occurrence index across a clean prefix. -/
theorem pyFindIdx_append_first (p : Char → Bool) (name rest : List Char) (x : Char)
    (h : ∀ c ∈ name, p c = false) (hx : p x = true) :
    pyFindIdx p (name ++ x :: rest) = some name.length := by
  induction name with
  | nil => simp [pyFindIdx, hx]
  | cons c cs ih =>
    have hc := h c (List.mem_cons_self c cs)
    have ih2 := ih (fun d hd => h d (List.mem_cons_of_mem c hd))
    simp [pyFindIdx, hc, ih2]

/-- Index lookup beyond an appended prefix. -/
theorem get?_append_len (l₁ l₂ : List Char) (n : Nat) :
    (l₁ ++ l₂).get? (l₁.length + n) = l₂.get? n := by
  induction l₁ with
  | nil => simp
  | cons c cs ih =>
    simp only [List.cons_append, List.length_cons, Nat.succ_add, List.get?_cons_succ]
    exact ih

/-- Dropping beyond an appended prefix. -/
theorem drop_append_len (l₁ l₂ : List Char) (n : Nat) :
    (l₁ ++ l₂).drop (l₁.length + n) = l₂.drop n := by
  induction l₁ with
  | nil => simp
  | cons c cs ih =>
    simp only [List.cons_append, List.length_cons, Nat.succ_add, List.drop_succ_cons]
    exact ih

/-- An `altUnquoted` result is a non-empty token plus the untouched rest. -/
theorem altUnquoted_decomp (w r tok rest : List Char) (hw : w ≠ [])
    (h : altUnquoted w r = some (tok, rest)) : tok ≠ [] ∧ tok ++ rest = w ++ r := by
  unfold altUnquoted at h
  split at h
  · rename_i t
    split at h
    · injection h with h1
      injection h1 with h1 h2
      subst h1; subst h2
      exact ⟨hw, rfl⟩
    · rename_i v0 v1 hv
      injection h with h1
      injection h1 with h1 h2
      subst h1; subst h2
      refine ⟨by simp, ?_⟩
      have hds := takeWhile_append_drop_self (fun c => ¬ isPyWs c) t
      rw [hv] at hds
      conv_rhs => rw [← hds]
      simp
  · injection h with h1
    injection h1 with h1 h2
    subst h1; subst h2
    exact ⟨hw, rfl⟩

/-- A `matchAttrToken` result is a non-empty token plus the untouched
rest: the tokenizer consumes exactly the unit it matched. -/
theorem matchAttrToken_decomp (s tok rest : List Char)
    (h : matchAttrToken s = some (tok, rest)) : tok ≠ [] ∧ tok ++ rest = s := by
  unfold matchAttrToken at h
  split at h
  · rename_i t
    split at h
    · exact absurd h (by simp)
    · rename_i w0 w1 hw
      injection h with h1
      injection h1 with h1 h2
      subst h1; subst h2
      refine ⟨by simp, ?_⟩
      have hds := takeWhile_append_drop_self isWordChar t
      rw [hw] at hds
      conv_rhs => rw [← hds]
      simp
  · split at h
    · exact absurd h (by simp)
    · rename_i w0 w1 hw
      have hs := takeWhile_append_drop_self isWordChar s
      rw [hw] at hs
      split at h
      · rename_i t heq
        split at h
        · have hd := altUnquoted_decomp (w0 :: w1) ('=' :: '\x27' :: t) tok rest (by simp) h
          rw [← heq] at hd
          rw [hs] at hd
          exact hd
        · rename_i v0 v1 hv
          split at h
          · rename_i rest2 hq
            injection h with h1
            injection h1 with h1 h2
            subst h1; subst h2
            refine ⟨by simp, ?_⟩
            have ht := takeWhile_append_drop_self (fun c => c ≠ '\x27') t
            rw [hv] at ht
            rw [hq] at ht
            conv_rhs => rw [← hs, heq, ← ht]
            simp
          · have hd := altUnquoted_decomp (w0 :: w1) ('=' :: '\x27' :: t) tok rest (by simp) h
            rw [← heq] at hd
            rw [hs] at hd
            exact hd
      · have hd := altUnquoted_decomp (w0 :: w1) (List.drop (w0 :: w1).length s)
          tok rest (by simp) h
        rw [hs] at hd
        exact hd

/-- Taking exactly an appended prefix returns it. -/
theorem take_append_len (l₁ l₂ : List Char) : (l₁ ++ l₂).take l₁.length = l₁ := by
  induction l₁ with
  | nil => simp
  | cons c cs ih => simp [ih]

/-- C9: attribute-block parsing.  A missing segment or one without the
double-brace wrapper parses to no attributes; the tokenizer consumes
non-empty first-match units exactly; a `#word` token assigns `id` and a
`name=\x27value\x27` token assigns the named parameter; and the concrete
block from the spec yields id `myid`, class `foo bar` in encounter order,
and width `100`. -/
theorem attribute_parsing :
    pyAttributes none = .ok [] ∧
    (∀ s : String, findDoubleBraced s.toList = none → pyAttributes (some s) = .ok []) ∧
    pyAttributes (some "width=300") = .ok [] ∧
    (∀ s tok rest : List Char, matchAttrToken s = some (tok, rest) →
      tok ≠ [] ∧ tok ++ rest = s) ∧
    (∀ (attrs : List (String × AVal)) (w : List Char),
      procToken attrs ('#' :: w) = .ok (avalSet attrs "id" (.str ⟨w⟩))) ∧
    (∀ (attrs : List (String × AVal)) (n0 : Char) (nt v : List Char),
      n0 ≠ '#' → '=' ∉ (n0 :: nt) →
      procToken attrs ((n0 :: nt) ++ '=' :: '\x27' :: (v ++ ['\x27'])) =
        .ok (avalSet attrs ⟨n0 :: nt⟩ (.str ⟨v⟩))) ∧
    findTokens ("#myid foo bar width=\x27100\x27".toList).length
        "#myid foo bar width=\x27100\x27".toList =
      ["#myid".toList, "foo".toList, "bar".toList, "width=\x27100\x27".toList] ∧
    pyAttributes (some "\x7b\x7b#myid foo bar width=\x27100\x27\x7d\x7d") =
      .ok [("id", "myid"), ("class", "foo bar"), ("width", "100")] := by
  refine ⟨rfl, ?_, rfl, matchAttrToken_decomp, fun attrs w => rfl, ?_, by rfl, by rfl⟩
  · intro s h
    simp only [String.toList] at h
    by_cases hs : s = ""
    · subst hs; rfl
    · simp [pyAttributes, hs, h]
  · intro attrs n0 nt v hn0 hmem
    have hfind : pyFindIdx (fun c => c = '=') ((n0 :: nt) ++ '=' :: '\x27' :: (v ++ ['\x27'])) =
        some (n0 :: nt).length := by
      refine pyFindIdx_append_first _ _ _ _ ?_ (by simp)
      intro c hc
      simp only [decide_eq_false_iff_not]
      intro he
      subst he
      exact hmem hc
    unfold procToken
    split
    · rename_i rest heq
      injection heq with h1
      exact absurd h1 hn0
    · have hget : ((n0 :: nt) ++ '=' :: '\x27' :: (v ++ ['\x27'])).get?
          ((n0 :: nt).length + 1) = some '\x27' := by
        rw [get?_append_len]
        rfl
      have htake : ((n0 :: nt) ++ '=' :: '\x27' :: (v ++ ['\x27'])).take (n0 :: nt).length =
          n0 :: nt := take_append_len _ _
      have hdrop : ((n0 :: nt) ++ '=' :: '\x27' :: (v ++ ['\x27'])).drop
          ((n0 :: nt).length + 2) = v ++ ['\x27'] := by
        rw [drop_append_len]
        rfl
      have hlast : (v ++ ['\x27']).dropLast = v := by simp
      simp only [hfind, hget, htake, hdrop, hlast, if_true]

/-- Witness for C9: the tokenizer consumes a quoted unit exactly. -/
theorem attribute_parsing_witness :
    matchAttrToken "width=\x27100\x27 rest".toList =
      some ("width=\x27100\x27".toList, " rest".toList) ∧
    "width=\x27100\x27".toList ≠ [] ∧
    "width=\x27100\x27".toList ++ " rest".toList = "width=\x27100\x27 rest".toList := by
  refine ⟨by rfl, ?_⟩
  exact attribute_parsing.2.2.2.1 "width=\x27100\x27 rest".toList
    "width=\x27100\x27".toList " rest".toList (by rfl)

/-- The ORIGINAL run and the remainder reassemble the input. -/
theorem takeOrig_append_drop (l : List Char) :
    takeOrig l ++ l.drop (takeOrig l).length = l := by
  induction l with
  | nil => rfl
  | cons c cs ih =>
    by_cases h1 : c ≠ '~' ∧ c ≠ '>'
    · simp [takeOrig, h1, ih]
    · by_cases h2 : c = '~' ∧ cs.head? ≠ some '>'
      · simp [takeOrig, h1, h2, ih]
      · simp [takeOrig, h1, h2]

/-- The NEW run and the remainder reassemble the input. -/
theorem takeNew_append_drop (l : List Char) :
    takeNew l ++ l.drop (takeNew l).length = l := by
  induction l with
  | nil => rfl
  | cons c cs ih =>
    by_cases h1 : c ≠ '~'
    · simp [takeNew, h1, ih]
    · by_cases h2 : cs.take 2 ≠ ['~', '\x7d']
      · simp [takeNew, h1, h2, ih]
      · simp [takeNew, h1, h2]

/-- No closing angle bracket can appear inside an ORIGINAL run. -/
theorem gt_not_mem_takeOrig (l : List Char) : '>' ∉ takeOrig l := by
  induction l with
  | nil => simp [takeOrig]
  | cons c cs ih =>
    by_cases h1 : c ≠ '~' ∧ c ≠ '>'
    · simp [takeOrig, h1, List.mem_cons, ih]
      intro h
      exact absurd h.symm h1.2
    · by_cases h2 : c = '~' ∧ cs.head? ≠ some '>'
      · simp [takeOrig, h1, h2, List.mem_cons, ih]
      · simp [takeOrig, h1, h2]

/-- A NEW run is a prefix of its input. -/
theorem takeNew_isPrefix (l : List Char) : takeNew l <+: l :=
  ⟨l.drop (takeNew l).length, takeNew_append_drop l⟩

/-- The closing delimiter `~~\x7d` cannot occur inside a NEW run. -/
theorem takeNew_no_close (l : List Char) : ¬ (['~', '~', '\x7d'] <:+: takeNew l) := by
  induction l with
  | nil =>
    intro h
    have := h.length_le
    simp [takeNew] at this
  | cons c cs ih =>
    by_cases h1 : c ≠ '~'
    · rw [show takeNew (c :: cs) = c :: takeNew cs by simp [takeNew, h1]]
      intro h
      rcases List.infix_cons_iff.mp h with hpre | hinf
      · exact h1 (List.cons_prefix_cons.mp hpre).1.symm
      · exact ih hinf
    · push_neg at h1
      by_cases h2 : cs.take 2 ≠ ['~', '\x7d']
      · rw [show takeNew (c :: cs) = c :: takeNew cs by simp [takeNew, h1, h2]]
        intro h
        rcases List.infix_cons_iff.mp h with hpre | hinf
        · have htail : ['~', '\x7d'] <+: takeNew cs := (List.cons_prefix_cons.mp hpre).2
          have hcs : ['~', '\x7d'] <+: cs := htail.trans (takeNew_isPrefix cs)
          have := List.prefix_iff_eq_take.mp hcs
          exact h2 this.symm
        · exact ih hinf
      · rw [show takeNew (c :: cs) = [] by simp [takeNew, h1, h2]]
        intro h
        have := h.length_le
        simp at this

/-- C4 counterexample: the substitution pass does match an annotation whose
ORIGINAL contains the double tilde `~~`, rewriting it instead of leaving
the text unchanged as the claimed grammar would require. -/
theorem substitution_claim_counterexample :
    matchSubstAt "\x7b~~a~~b~>c~~\x7d".toList =
      some ("a~~b".toList, "c".toList, []) ∧
    ['~', '~'] <:+: "a~~b".toList ∧
    substituteCritic "\x7b~~a~~b~>c~~\x7d" = "<del>a~~b</del><ins>c</ins>" ∧
    substituteCritic "\x7b~~a~~b~>c~~\x7d" ≠ "\x7b~~a~~b~>c~~\x7d" := by
  refine ⟨by rfl, ⟨['a'], ['b'], by rfl⟩, by rfl, by decide⟩

/-- C4 (amended): every match of the substitution pattern decomposes the
text as `\x7b~~ORIGINAL~>NEW~~\x7d` followed by the rest, where ORIGINAL is
non-empty and never contains `>` (hence never `~>`), and NEW is non-empty
and never contains the closing sequence `~~\x7d`; adjacent substitution
annotations are therefore matched separately, as the concrete two-in-a-row
rewrite shows. -/
theorem substitution_match_spec :
    (∀ l o n rest : List Char, matchSubstAt l = some (o, n, rest) →
      o ≠ [] ∧ '>' ∉ o ∧ n ≠ [] ∧ ¬ (['~', '~', '\x7d'] <:+: n) ∧
      l = '\x7b' :: '~' :: '~' :: (o ++ '~' :: '>' :: (n ++ '~' :: '~' :: '\x7d' :: rest))) ∧
    substituteCritic "\x7b~~a~>b~~\x7d\x7b~~c~>d~~\x7d" =
      "<del>a</del><ins>b</ins><del>c</del><ins>d</ins>" := by
  refine ⟨?_, by rfl⟩
  intro l o n rest h
  unfold matchSubstAt at h
  split at h
  · rename_i l3
    split at h
    · exact absurd h (by simp)
    · rename_i o0 o1 ho
      split at h
      · rename_i l4 heq2
        split at h
        · exact absurd h (by simp)
        · rename_i n0 n1 hn
          split at h
          · rename_i rest2 heq3
            injection h with h1
            injection h1 with h1 h2
            injection h2 with h2 h3
            subst h1; subst h2; subst h3
            have hdo := takeOrig_append_drop l3
            rw [ho] at hdo
            rw [heq2] at hdo
            have hdn := takeNew_append_drop l4
            rw [hn] at hdn
            rw [heq3] at hdn
            refine ⟨by simp, ?_, by simp, ?_, ?_⟩
            · rw [← ho]; exact gt_not_mem_takeOrig l3
            · rw [← hn]; exact takeNew_no_close l4
            · rw [← hdo, ← hdn]
          · exact absurd h (by simp)
      · exact absurd h (by simp)
  · exact absurd h (by simp)

/-- Witness for C4 on the first of two adjacent annotations: the match
stops at the first closer, leaving the second annotation in the rest. -/
theorem substitution_match_spec_witness :
    matchSubstAt "\x7b~~a~>b~~\x7d\x7b~~c~>d~~\x7d".toList =
      some (['a'], ['b'], "\x7b~~c~>d~~\x7d".toList) ∧
    (['a'] ≠ [] ∧ '>' ∉ ['a'] ∧ ['b'] ≠ [] ∧ ¬ (['~', '~', '\x7d'] <:+: ['b']) ∧
      "\x7b~~a~>b~~\x7d\x7b~~c~>d~~\x7d".toList =
        '\x7b' :: '~' :: '~' :: (['a'] ++ '~' :: '>' ::
          (['b'] ++ '~' :: '~' :: '\x7d' :: "\x7b~~c~>d~~\x7d".toList))) :=
  ⟨by rfl, substitution_match_spec.1 "\x7b~~a~>b~~\x7d\x7b~~c~>d~~\x7d".toList
    ['a'] ['b'] "\x7b~~c~>d~~\x7d".toList (by rfl)⟩

/-- C10 counterexample: on a whitespace-only line `run` raises IndexError
instead of returning a line list at all. -/
theorem run_length_counterexample :
    (runSmartEmbeds ["  "]).toOption = none := by rfl

/-- C10 (amended): whenever `run` returns without raising an exception, the
returned list has exactly one element per input line — a recognized
directive is replaced by its rendered template as a single element and
every other line is carried over one-for-one. -/
theorem run_preserves_length (lines out : List String)
    (h : runSmartEmbeds lines = .ok out) : out.length = lines.length := by
  induction lines generalizing out with
  | nil =>
    simp only [runSmartEmbeds, mapExcept] at h
    injection h with h1
    subst h1
    rfl
  | cons l ls ih =>
    simp only [runSmartEmbeds, mapExcept] at h
    cases hp : procLine l with
    | error e =>
      rw [hp] at h
      exact absurd h (by simp)
    | ok b =>
      rw [hp] at h
      cases hm : mapExcept procLine ls with
      | error e =>
        rw [hm] at h
        exact absurd h (by simp)
      | ok bs =>
        rw [hm] at h
        injection h with h1
        subst h1
        simp [ih bs hm]

/-- Witness for C10: a two-line input with one rewritten directive keeps
its length. -/
theorem run_preserves_length_witness :
    runSmartEmbeds ["x", "@speakerdeck:[T](http://u)"] =
      .ok ["x", "<a href=\"http://u\" rel=\"nofollow external\" target=\"_blank\">T</a>"] ∧
    (["x", "<a href=\"http://u\" rel=\"nofollow external\" target=\"_blank\">T</a>"] :
        List String).length =
      (["x", "@speakerdeck:[T](http://u)"] : List String).length :=
  ⟨by rfl, run_preserves_length ["x", "@speakerdeck:[T](http://u)"]
    ["x", "<a href=\"http://u\" rel=\"nofollow external\" target=\"_blank\">T</a>"] (by rfl)⟩
